import Mathlib

/-!
# Adafruit_VEML6046: register access layer

A shallow embedding of `Adafruit_VEML6046.cpp` / `Adafruit_VEML6046.h`.

The driver talks to the sensor through the Adafruit BusIO classes
(`Adafruit_I2CDevice`, `Adafruit_BusIO_Register`, `Adafruit_BusIO_RegisterBits`).
They are not part of the driver's two source files; they are modelled here as
explicit state passing over a `Bus`: the sensor's register file, the outcome
of every bus transaction, and the log of the transactions attempted so far.

Machine integers are natural numbers with explicit reductions: `uint8_t` is
`% 256`, `uint16_t` is `% 65536`, `uint32_t` is `% 2 ^ 32`.
-/

set_option autoImplicit false
set_option maxRecDepth 100000

namespace VEML6046

/-! ## Register addresses (`Adafruit_VEML6046.h`) -/

/-- RGB configuration register 0. -/
def VEML6046_REG_RGB_CONF_0 : Nat := 0x00
/-- RGB configuration register 1. -/
def VEML6046_REG_RGB_CONF_1 : Nat := 0x01
/-- Green high threshold low byte. -/
def VEML6046_REG_G_THDH_L : Nat := 0x04
/-- Green high threshold high byte. -/
def VEML6046_REG_G_THDH_H : Nat := 0x05
/-- Green low threshold low byte. -/
def VEML6046_REG_G_THDL_L : Nat := 0x06
/-- Green low threshold high byte. -/
def VEML6046_REG_G_THDL_H : Nat := 0x07
/-- Red data low byte. -/
def VEML6046_REG_R_DATA_L : Nat := 0x10
/-- Device ID low byte. -/
def VEML6046_REG_ID_L : Nat := 0x18
/-- Device ID high byte. -/
def VEML6046_REG_ID_H : Nat := 0x19

/-! ## The bus and the sensor behind it -/

/-- One bus transaction, as the driver issues it. -/
inductive Txn where
  /-- Address detection done by `Adafruit_I2CDevice::begin`. -/
  | probe (addr : Nat)
  /-- Transaction `write_then_read`: the register address is sent, then `len` bytes are read. -/
  | read (reg len : Nat)
  /-- Register write: the register address followed by the data bytes. -/
  | write (reg : Nat) (bytes : List Nat)
  deriving DecidableEq, Repr

/-- Modelled from the spec: the bus transport (`Adafruit_I2CDevice`, not among the
driver's sources) with the sensor behind it, "a capability to open a connection
at a 7-bit address, write N bytes to a register address and read back M bytes in
one transaction, report success/failure per call". `regs` is the sensor's
register file, one byte per register address (registers store what is written),
`ok n` is the outcome of the `n`-th transaction attempted, `log` lists the
transactions attempted so far. -/
structure Bus where
  regs : Nat → Fin 256
  ok : Nat → Bool
  log : List Txn

/-- A transaction is attempted: it is logged, and its outcome is the one the
environment fixed for this position. -/
def Bus.attempt (s : Bus) (t : Txn) : Bool × Bus :=
  (s.ok s.log.length, { s with log := s.log ++ [t] })

/-- The `len` bytes found at consecutive registers from `reg` on. -/
def fetchBytes (regs : Nat → Fin 256) (reg len : Nat) : List Nat :=
  (List.range len).map (fun i => (regs (reg + i)).val)

/-- The register file after `bytes` are stored at consecutive registers from `reg` on. -/
def storeBytes (regs : Nat → Fin 256) (reg : Nat) : List Nat → Nat → Fin 256
  | [] => regs
  | b :: bs =>
    storeBytes (fun a => if a = reg then ⟨b % 256, Nat.mod_lt b (by decide)⟩ else regs a)
      (reg + 1) bs

/-- Modelled from the spec: `Adafruit_I2CDevice::begin` (BusIO, not among the
driver's sources): opens the transport and detects the device at `addr`. -/
def i2c_begin (s : Bus) (addr : Nat) : Bool × Bus :=
  s.attempt (Txn.probe addr)

/-- Modelled from the spec: `Adafruit_I2CDevice::write_then_read` (BusIO, not among
the driver's sources) with a one-byte register address: on success the buffer
holds the `len` bytes read, on failure nothing is delivered. -/
def write_then_read (s : Bus) (reg len : Nat) : Option (List Nat) × Bus :=
  let (good, s1) := s.attempt (Txn.read reg len)
  if good then (some (fetchBytes s.regs reg len), s1) else (none, s1)

/-- Modelled from the spec: `Adafruit_I2CDevice::write` with the register address as
prefix (BusIO, not among the driver's sources): on success the sensor stores the
bytes at consecutive registers, on failure the register file is untouched. -/
def i2c_write (s : Bus) (reg : Nat) (bytes : List Nat) : Bool × Bus :=
  let (good, s1) := s.attempt (Txn.write reg bytes)
  if good then (true, { s1 with regs := storeBytes s.regs reg bytes }) else (false, s1)

/-! ## `Adafruit_BusIO_Register` and `Adafruit_BusIO_RegisterBits` -/

/-- Byte order of a multi-byte register. -/
inductive ByteOrder where
  | LSBFIRST
  | MSBFIRST
  deriving DecidableEq, Repr

/-- Modelled from the spec: `Adafruit_BusIO_Register` (BusIO, not among the driver's
sources) as the driver constructs it: register address, width in bytes, byte
order. -/
structure Register where
  address : Nat
  width : Nat
  byteorder : ByteOrder
  deriving DecidableEq, Repr

/-- The `uint32_t` assembled from a buffer, most significant byte first:
`value <<= 8; value |= byte` for every byte. -/
def assembleMSB (buf : List Nat) : Nat :=
  buf.foldl (fun value b => (((value <<< 8) % 2 ^ 32) ||| (b % 256))) 0

/-- The `uint32_t` value of a buffer in the given byte order. -/
def assemble (o : ByteOrder) (buf : List Nat) : Nat :=
  match o with
  | ByteOrder.MSBFIRST => assembleMSB buf
  | ByteOrder.LSBFIRST => assembleMSB buf.reverse

/-- The `numbytes` low bytes of `value`, least significant first:
`buffer[i] = value & 0xFF; value >>= 8`. -/
def splitLSB : Nat → Nat → List Nat
  | 0, _ => []
  | n + 1, value => (value &&& 0xFF) :: splitLSB n (value >>> 8)

/-- The buffer holding `value` in the given byte order. -/
def split (o : ByteOrder) (numbytes value : Nat) : List Nat :=
  match o with
  | ByteOrder.LSBFIRST => splitLSB numbytes value
  | ByteOrder.MSBFIRST => (splitLSB numbytes value).reverse

/-- Modelled from the spec: `Adafruit_BusIO_Register::read()` (BusIO, not among the
driver's sources): one `write_then_read` of `width` bytes at the register
address, assembled in the register's byte order. The result is a plain
`uint32_t` with no error channel (the driver uses it directly); when the
transaction fails the library returns `0xFFFFFFFF`. -/
def Register.read (r : Register) (s : Bus) : Nat × Bus :=
  match write_then_read s r.address r.width with
  | (some buf, s1) => (assemble r.byteorder buf, s1)
  | (none, s1) => (0xFFFFFFFF, s1)

/-- Modelled from the spec: `Adafruit_BusIO_Register::write(value)` (BusIO, not among
the driver's sources): the `width` low bytes of `value` are written in the
register's byte order in one transaction; more than four bytes are refused. -/
def Register.write (r : Register) (value : Nat) (s : Bus) : Bool × Bus :=
  if r.width > 4 then (false, s)
  else i2c_write s r.address (split r.byteorder r.width (value % 2 ^ 32))

/-- Modelled from the spec: `Adafruit_BusIO_RegisterBits` (BusIO, not among the
driver's sources): `bits` bits of a register, starting at bit `shift`. -/
structure RegisterBits where
  reg : Register
  bits : Nat
  shift : Nat
  deriving DecidableEq, Repr

/-- The `uint32_t` mask `(1 << bits) - 1`. -/
def fieldMask (bits : Nat) : Nat := ((1 <<< bits) - 1) % 2 ^ 32

/-- Modelled from the spec: the getter half of a bit field, "read the byte(s), shift
and mask out the target bits": `val >>= shift; return val & ((1 << bits) - 1)`. -/
def extractBits (val bits shift : Nat) : Nat :=
  (val >>> shift) &&& fieldMask bits

/-- Modelled from the spec: the setter half of a bit field, "clear only the target
bit range, OR in the new value shifted into place", on `uint32_t`:
`data &= mask; mask <<= shift; val &= ~mask; val |= data << shift`. -/
def insertBits (val data bits shift : Nat) : Nat :=
  let mask := fieldMask bits
  let data := (data % 2 ^ 32) &&& mask
  let mask := (mask <<< shift) % 2 ^ 32
  let val := val &&& (0xFFFFFFFF ^^^ mask)
  val ||| ((data <<< shift) % 2 ^ 32)

/-- Modelled from the spec: `Adafruit_BusIO_RegisterBits::read()` (BusIO, not among
the driver's sources): read the register, shift and mask. -/
def RegisterBits.read (f : RegisterBits) (s : Bus) : Nat × Bus :=
  let (val, s1) := f.reg.read s
  (extractBits val f.bits f.shift, s1)

/-- Modelled from the spec: `Adafruit_BusIO_RegisterBits::write(data)` (BusIO, not
among the driver's sources): read-modify-write of the whole register. The
value read is used as it comes, and the result is that of the write. -/
def RegisterBits.write (f : RegisterBits) (data : Nat) (s : Bus) : Bool × Bus :=
  let (val, s1) := f.reg.read s
  f.reg.write (insertBits val data f.bits f.shift) s1

/-! ## Configuration enums (`Adafruit_VEML6046.h`) -/

/-- Integration time settings. -/
inductive veml6046_integration_time_t where
  | VEML6046_IT_3_125MS
  | VEML6046_IT_6_25MS
  | VEML6046_IT_12_5MS
  | VEML6046_IT_25MS
  | VEML6046_IT_50MS
  | VEML6046_IT_100MS
  | VEML6046_IT_200MS
  | VEML6046_IT_400MS
  deriving DecidableEq, Repr

/-- The enumerator values of `veml6046_integration_time_t`. -/
def veml6046_integration_time_t.val : veml6046_integration_time_t → Nat
  | VEML6046_IT_3_125MS => 0x00
  | VEML6046_IT_6_25MS => 0x01
  | VEML6046_IT_12_5MS => 0x02
  | VEML6046_IT_25MS => 0x03
  | VEML6046_IT_50MS => 0x04
  | VEML6046_IT_100MS => 0x05
  | VEML6046_IT_200MS => 0x06
  | VEML6046_IT_400MS => 0x07

/-- RGB gain settings. -/
inductive veml6046_gain_t where
  | VEML6046_GAIN_1X
  | VEML6046_GAIN_2X
  | VEML6046_GAIN_0_66X
  | VEML6046_GAIN_0_5X
  deriving DecidableEq, Repr

/-- The enumerator values of `veml6046_gain_t`. -/
def veml6046_gain_t.val : veml6046_gain_t → Nat
  | VEML6046_GAIN_1X => 0x00
  | VEML6046_GAIN_2X => 0x01
  | VEML6046_GAIN_0_66X => 0x02
  | VEML6046_GAIN_0_5X => 0x03

/-- Interrupt persistence settings. -/
inductive veml6046_persistence_t where
  | VEML6046_PERS_1
  | VEML6046_PERS_2
  | VEML6046_PERS_4
  | VEML6046_PERS_8
  deriving DecidableEq, Repr

/-- The enumerator values of `veml6046_persistence_t`. -/
def veml6046_persistence_t.val : veml6046_persistence_t → Nat
  | VEML6046_PERS_1 => 0x00
  | VEML6046_PERS_2 => 0x01
  | VEML6046_PERS_4 => 0x02
  | VEML6046_PERS_8 => 0x03

/-! ## The driver (`Adafruit_VEML6046.cpp`)

Every method takes the bus state and returns its result with the new state.
Enum parameters are taken by their numeric value, the way the method passes
them on to `RegisterBits::write(uint32_t)`; enum results are the numeric value
the method casts. -/

/-- The one-byte register `RGB_CONF_0`. -/
def rgb_conf0_reg : Register := ⟨VEML6046_REG_RGB_CONF_0, 1, ByteOrder.LSBFIRST⟩

/-- The one-byte register `RGB_CONF_1`. -/
def rgb_conf1_reg : Register := ⟨VEML6046_REG_RGB_CONF_1, 1, ByteOrder.LSBFIRST⟩

/-- The two-byte register at `RGB_CONF_0`, most significant byte first. -/
def rgb_conf_reg : Register := ⟨VEML6046_REG_RGB_CONF_0, 2, ByteOrder.MSBFIRST⟩

/-- Method `Adafruit_VEML6046::setIntegrationTime`: 3 bits at offset 4 of `RGB_CONF_0`. -/
def setIntegrationTime (s : Bus) (it : Nat) : Bool × Bus :=
  RegisterBits.write ⟨rgb_conf0_reg, 3, 4⟩ it s

/-- Method `Adafruit_VEML6046::getIntegrationTime`. -/
def getIntegrationTime (s : Bus) : Nat × Bus :=
  RegisterBits.read ⟨rgb_conf0_reg, 3, 4⟩ s

/-- Method `Adafruit_VEML6046::getRGBModeForced`. -/
def getRGBModeForced (s : Bus) : Bool × Bus :=
  let (v, s1) := RegisterBits.read ⟨rgb_conf0_reg, 1, 3⟩ s
  (v == 1, s1)

/-- Method `Adafruit_VEML6046::isTriggered`. -/
def isTriggered (s : Bus) : Bool × Bus :=
  let (v, s1) := RegisterBits.read ⟨rgb_conf0_reg, 1, 2⟩ s
  (v == 1, s1)

/-- Method `Adafruit_VEML6046::getGreenIntEnabled`. -/
def getGreenIntEnabled (s : Bus) : Bool × Bus :=
  let (v, s1) := RegisterBits.read ⟨rgb_conf0_reg, 1, 1⟩ s
  (v == 1, s1)

/-- Method `Adafruit_VEML6046::enable`: writes 0 to the 2 bits at offset 7 of the
two-byte register at `RGB_CONF_0` (most significant byte first). -/
def enable (s : Bus) : Bool × Bus :=
  RegisterBits.write ⟨rgb_conf_reg, 2, 7⟩ 0x00 s

/-- Method `Adafruit_VEML6046::isEnabled`. -/
def isEnabled (s : Bus) : Bool × Bus :=
  let (v, s1) := RegisterBits.read ⟨rgb_conf_reg, 2, 7⟩ s
  (v == 0x00, s1)

/-- Method `Adafruit_VEML6046::getPhotoDiodeHalfSize`. -/
def getPhotoDiodeHalfSize (s : Bus) : Bool × Bus :=
  let (v, s1) := RegisterBits.read ⟨rgb_conf1_reg, 1, 6⟩ s
  (v == 1, s1)

/-- Method `Adafruit_VEML6046::setRGBGain`: 2 bits at offset 3 of `RGB_CONF_1`. -/
def setRGBGain (s : Bus) (gain : Nat) : Bool × Bus :=
  RegisterBits.write ⟨rgb_conf1_reg, 2, 3⟩ gain s

/-- Method `Adafruit_VEML6046::getRGBGain`. -/
def getRGBGain (s : Bus) : Nat × Bus :=
  RegisterBits.read ⟨rgb_conf1_reg, 2, 3⟩ s

/-- Method `Adafruit_VEML6046::setIntPersistence`: 2 bits at offset 1 of `RGB_CONF_1`. -/
def setIntPersistence (s : Bus) (pers : Nat) : Bool × Bus :=
  RegisterBits.write ⟨rgb_conf1_reg, 2, 1⟩ pers s

/-- Method `Adafruit_VEML6046::getIntPersistence`. -/
def getIntPersistence (s : Bus) : Nat × Bus :=
  RegisterBits.read ⟨rgb_conf1_reg, 2, 1⟩ s

/-- Method `Adafruit_VEML6046::setRGBCalibration`: 1 bit at offset 0 of `RGB_CONF_1`. -/
def setRGBCalibration (s : Bus) (enabled : Bool) : Bool × Bus :=
  RegisterBits.write ⟨rgb_conf1_reg, 1, 0⟩ (if enabled then 1 else 0) s

/-- Method `Adafruit_VEML6046::getRGBCalibration`. -/
def getRGBCalibration (s : Bus) : Bool × Bus :=
  let (v, s1) := RegisterBits.read ⟨rgb_conf1_reg, 1, 0⟩ s
  (v == 1, s1)

/-- The two-byte green high threshold register, least significant byte first. -/
def thdh_reg : Register := ⟨VEML6046_REG_G_THDH_L, 2, ByteOrder.LSBFIRST⟩

/-- The two-byte green low threshold register, least significant byte first. -/
def thdl_reg : Register := ⟨VEML6046_REG_G_THDL_L, 2, ByteOrder.LSBFIRST⟩

/-- Method `Adafruit_VEML6046::setGreenThresholdHigh` (`threshold` is a `uint16_t`). -/
def setGreenThresholdHigh (s : Bus) (threshold : Nat) : Bool × Bus :=
  thdh_reg.write (threshold % 65536) s

/-- Method `Adafruit_VEML6046::getGreenThresholdHigh` (the result is a `uint16_t`). -/
def getGreenThresholdHigh (s : Bus) : Nat × Bus :=
  let (v, s1) := thdh_reg.read s
  (v % 65536, s1)

/-- Method `Adafruit_VEML6046::setGreenThresholdLow` (`threshold` is a `uint16_t`). -/
def setGreenThresholdLow (s : Bus) (threshold : Nat) : Bool × Bus :=
  thdl_reg.write (threshold % 65536) s

/-- Method `Adafruit_VEML6046::getGreenThresholdLow` (the result is a `uint16_t`). -/
def getGreenThresholdLow (s : Bus) : Nat × Bus :=
  let (v, s1) := thdl_reg.read s
  (v % 65536, s1)

/-- Method `Adafruit_VEML6046::begin`: open the transport at `i2c_addr` (a `uint8_t`),
check the device ID, enable the sensor, enable RGB calibration. The `Bus` stands
for the `i2c_dev` the method creates, with the sensor behind it. -/
def begin (s : Bus) (i2c_addr : Nat) : Bool × Bus :=
  let (opened, s1) := i2c_begin s (i2c_addr % 256)
  if !opened then (false, s1)
  else
    let id_reg : Register := ⟨VEML6046_REG_ID_L, 2, ByteOrder.LSBFIRST⟩
    let (v, s2) := id_reg.read s1
    let chip_id := v % 65536
    if chip_id != 0x0001 then (false, s2)
    else
      let (enabled, s3) := enable s2
      if !enabled then (false, s3)
      else
        let (calibrated, s4) := setRGBCalibration s3 true
        if !calibrated then (false, s4)
        else (true, s4)

/-! ## `getData`

The output parameters are pointers to `uint16_t`: a pointer is `none` (null)
or the location of a cell, and `Mem` maps locations to the values they hold. -/

/-- A `uint16_t*`: null, or the location of a cell. -/
abbrev Ptr := Option Nat

/-- The caller's memory: the `uint16_t` held at each location. -/
abbrev Mem := Nat → Nat

/-- The assignment `*p = v` for a non-null `p` pointing at `loc`. -/
def Mem.store (m : Mem) (loc v : Nat) : Mem :=
  fun a => if a = loc then v % 65536 else m a

/-- The `uint16_t` value of `buffer[i] | (buffer[i + 1] << 8)`. -/
def word16 (buffer : List Nat) (i : Nat) : Nat :=
  (buffer.getD i 0 ||| (buffer.getD (i + 1) 0 <<< 8)) % 65536

/-- Method `Adafruit_VEML6046::getData`: null check, one 8-byte read from
`R_DATA_L`, then the four stores. -/
def getData (s : Bus) (m : Mem) (r g b ir : Ptr) : Bool × Bus × Mem :=
  match r, g, b, ir with
  | some pr, some pg, some pb, some pir =>
    match write_then_read s VEML6046_REG_R_DATA_L 8 with
    | (none, s1) => (false, s1, m)
    | (some buffer, s1) =>
      let m1 := m.store pr (word16 buffer 0)
      let m2 := m1.store pg (word16 buffer 2)
      let m3 := m2.store pb (word16 buffer 4)
      let m4 := m3.store pir (word16 buffer 6)
      (true, s1, m4)
  | _, _, _, _ => (false, s, m)


/-! ## Notions used in the statements -/

/-- The byte a read-modify-write of a one-byte register writes back: the low
byte of the register value with the field replaced. -/
def rmwByte (b data bits shift : Nat) : Nat :=
  insertBits b data bits shift % 2 ^ 32 % 256

/-- The field laws of a `bits`-wide field at offset `shift` of a byte, for every
byte and every field value: the field reads back the value written, and no
bit outside the field differs from the byte read. -/
def FieldLaws (bits shift : Nat) : Prop :=
  ∀ b : Fin 256, ∀ d : Fin (2 ^ bits),
    extractBits (rmwByte b.val d.val bits shift) bits shift = d.val ∧
    ∀ j : Fin 8, (j.val < shift ∨ shift + bits ≤ j.val) →
      (rmwByte b.val d.val bits shift).testBit j.val = b.val.testBit j.val

instance (bits shift : Nat) : Decidable (FieldLaws bits shift) := by
  unfold FieldLaws; infer_instance

/-- The frame of a bit-field write: between the register files `old` and `new`,
only bits `lo .. lo + width - 1` of the byte at address `byte` may differ. -/
def ChangesOnly (old new : Nat → Fin 256) (byte lo width : Nat) : Prop :=
  ∀ a j : Nat, (a ≠ byte ∨ j < lo ∨ lo + width ≤ j) →
    (new a).val.testBit j = (old a).val.testBit j

/-- The bus after the probe and the ID read of `begin`. -/
def afterId (s : Bus) (i2c_addr : Nat) : Bus :=
  { s with log := s.log ++ [Txn.probe (i2c_addr % 256), Txn.read VEML6046_REG_ID_L 2] }

/-! ## Sample states -/

/-- A sensor whose data registers hold the burst
`[0x34,0x12, 0x78,0x56, 0xBC,0x9A, 0xF0,0xDE]` and whose ID register holds
`0x0001`; the configuration bytes are `0xA7` and `0xD5`. -/
def sampleRegs : Nat → Fin 256 := fun a =>
  match a with
  | 0x00 => 0xA7 | 0x01 => 0xD5
  | 0x10 => 0x34 | 0x11 => 0x12 | 0x12 => 0x78 | 0x13 => 0x56
  | 0x14 => 0xBC | 0x15 => 0x9A | 0x16 => 0xF0 | 0x17 => 0xDE
  | 0x18 => 0x01 | 0x19 => 0x00
  | _ => 0

/-- The sample sensor on a bus where every transaction succeeds. -/
def sampleBus : Bus := ⟨sampleRegs, fun _ => true, []⟩

/-- The sample sensor on a bus where every transaction fails. -/
def deadBus : Bus := ⟨sampleRegs, fun _ => false, []⟩

/-- A caller memory holding `7` everywhere. -/
def sampleMem : Mem := fun _ => 7

/-- The sample sensor with ID bytes `0x02`, `0x00`, every transaction succeeding. -/
def wrongIdBus : Bus :=
  ⟨fun a => if a = 0x18 then 0x02 else sampleRegs a, fun _ => true, []⟩

/-! ## Byte and word arithmetic -/

theorem word_of_bytes (lo hi : Nat) (hlo : lo < 256) (hhi : hi < 256) :
    (lo ||| (hi <<< 8)) % 65536 = lo + 256 * hi := by
  have h1 : hi <<< 8 ||| lo = hi <<< 8 + lo := by
    rw [Nat.shiftLeft_eq, Nat.mul_comm]
    exact (Nat.mul_add_lt_is_or (i := 8) hlo hi).symm
  rw [Nat.lor_comm, h1, Nat.shiftLeft_eq]
  omega

theorem fetchBytes_eight (regs : Nat → Fin 256) (reg : Nat) :
    fetchBytes regs reg 8 =
      [(regs reg).val, (regs (reg + 1)).val, (regs (reg + 2)).val, (regs (reg + 3)).val,
       (regs (reg + 4)).val, (regs (reg + 5)).val, (regs (reg + 6)).val,
       (regs (reg + 7)).val] := by
  simp [fetchBytes, List.range, List.range.loop]

theorem assembleMSB_single (b : Nat) (hb : b < 256) : assembleMSB [b] = b := by
  simp [assembleMSB, Nat.mod_eq_of_lt hb]

theorem assembleMSB_pair (hi lo : Nat) (hhi : hi < 256) (hlo : lo < 256) :
    assembleMSB [hi, lo] = hi * 256 + lo := by
  have h1 : hi * 256 ||| lo = hi * 256 + lo := by
    rw [Nat.mul_comm]
    exact (Nat.mul_add_lt_is_or (i := 8) hlo hi).symm
  have h2 : (hi * 256) % 4294967296 = hi * 256 := Nat.mod_eq_of_lt (by omega)
  simp only [assembleMSB, List.foldl_cons, List.foldl_nil, Nat.zero_shiftLeft, Nat.zero_mod,
    Nat.zero_or, Nat.mod_eq_of_lt hhi, Nat.mod_eq_of_lt hlo, Nat.shiftLeft_eq]
  norm_num
  rw [h2, h1]

theorem and_255 (x : Nat) : x &&& 0xFF = x % 256 :=
  Nat.and_pow_two_sub_one_eq_mod x 8

theorem splitLSB_one (v : Nat) : splitLSB 1 v = [v % 256] := by
  simp [splitLSB, and_255]

theorem splitLSB_two (v : Nat) : splitLSB 2 v = [v % 256, v / 256 % 256] := by
  simp [splitLSB, and_255, Nat.shiftRight_eq_div_pow]

/-- A one-byte register read that succeeds returns the byte the sensor holds. -/
theorem Register_read_byte (a : Nat) (o : ByteOrder) (s : Bus) :
    Register.read ⟨a, 1, o⟩ s =
      (if s.ok s.log.length then (s.regs a).val else 0xFFFFFFFF,
        { s with log := s.log ++ [Txn.read a 1] }) := by
  cases hok : s.ok s.log.length <;> cases o <;>
    simp [Register.read, write_then_read, Bus.attempt, hok, fetchBytes, List.range,
      List.range.loop, assemble, assembleMSB_single _ (s.regs a).isLt]

theorem Register_read_pair (a : Nat) (s : Bus) :
    Register.read ⟨a, 2, ByteOrder.LSBFIRST⟩ s =
      (if s.ok s.log.length then (s.regs a).val + 256 * (s.regs (a + 1)).val else 0xFFFFFFFF,
        { s with log := s.log ++ [Txn.read a 2] }) ∧
    Register.read ⟨a, 2, ByteOrder.MSBFIRST⟩ s =
      (if s.ok s.log.length then (s.regs a).val * 256 + (s.regs (a + 1)).val else 0xFFFFFFFF,
        { s with log := s.log ++ [Txn.read a 2] }) := by
  cases hok : s.ok s.log.length <;>
    simp [Register.read, write_then_read, Bus.attempt, hok, fetchBytes, List.range,
      List.range.loop, assemble, assembleMSB_pair _ _ (s.regs a).isLt (s.regs (a + 1)).isLt,
      assembleMSB_pair _ _ (s.regs (a + 1)).isLt (s.regs a).isLt]
  omega

theorem fieldLaws_3_4 : FieldLaws 3 4 := by decide
theorem fieldLaws_2_3 : FieldLaws 2 3 := by decide
theorem fieldLaws_2_1 : FieldLaws 2 1 := by decide
theorem fieldMask_eq (bits : Nat) (hbits : bits < 32) : fieldMask bits = 2 ^ bits - 1 := by
  have h : 2 ^ bits < 2 ^ 32 := Nat.pow_lt_pow_right (by decide) hbits
  simp only [fieldMask, Nat.shiftLeft_eq, Nat.one_mul]
  exact Nat.mod_eq_of_lt (by omega)

/-- The argument of a field write is reduced to the field's width first. -/
theorem insertBits_mod (val data bits shift : Nat) (hbits : bits < 32) :
    insertBits val data bits shift = insertBits val (data % 2 ^ bits) bits shift := by
  have h : 2 ^ bits < 2 ^ 32 := Nat.pow_lt_pow_right (by decide) hbits
  have h1 : data % 2 ^ 32 % 2 ^ bits = data % 2 ^ bits :=
    Nat.mod_mod_of_dvd _ (Nat.pow_dvd_pow 2 (by omega))
  have h2 : data % 2 ^ bits % 2 ^ 32 = data % 2 ^ bits :=
    Nat.mod_eq_of_lt (Nat.lt_trans (Nat.mod_lt _ (Nat.two_pow_pos bits)) h)
  simp only [insertBits, fieldMask_eq bits hbits, Nat.and_pow_two_sub_one_eq_mod, h1, h2,
    Nat.mod_mod]

theorem rmwByte_lt (b data bits shift : Nat) : rmwByte b data bits shift < 256 :=
  Nat.mod_lt _ (by decide)

theorem testBit_byte_high (x j : Nat) (hx : x < 256) (hj : 8 ≤ j) : x.testBit j = false :=
  Nat.testBit_lt_two_pow
    (Nat.lt_of_lt_of_le hx (Nat.pow_le_pow_right (by decide) hj : 2 ^ 8 ≤ 2 ^ j))

/-- The field laws, for every argument and every bit position. -/
theorem FieldLaws.apply {bits shift : Nat} (hf : FieldLaws bits shift) (hbits : bits < 32)
    (b : Fin 256) (data : Nat) :
    extractBits (rmwByte b.val data bits shift) bits shift = data % 2 ^ bits ∧
    ∀ j : Nat, (j < shift ∨ shift + bits ≤ j) →
      (rmwByte b.val data bits shift).testBit j = b.val.testBit j := by
  have hd : data % 2 ^ bits < 2 ^ bits := Nat.mod_lt _ (Nat.two_pow_pos bits)
  have h := hf b ⟨data % 2 ^ bits, hd⟩
  have e : rmwByte b.val data bits shift = rmwByte b.val (data % 2 ^ bits) bits shift := by
    simp only [rmwByte]; rw [insertBits_mod _ data bits shift hbits]
  rw [e]
  refine ⟨h.1, fun j hj => ?_⟩
  by_cases h8 : j < 8
  · exact h.2 ⟨j, h8⟩ hj
  · rw [testBit_byte_high _ j (rmwByte_lt _ _ _ _) (by omega),
      testBit_byte_high _ j b.isLt (by omega)]


theorem storeBytes_one (regs : Nat → Fin 256) (a w x : Nat) :
    (storeBytes regs a [w] x).val = if x = a then w % 256 else (regs x).val := by
  simp only [storeBytes]; split <;> rfl

theorem storeBytes_two (regs : Nat → Fin 256) (a w0 w1 x : Nat) :
    (storeBytes regs a [w0, w1] x).val =
      if x = a + 1 then w1 % 256 else if x = a then w0 % 256 else (regs x).val := by
  simp only [storeBytes]; split <;> [rfl; (split <;> rfl)]

/-- A read-modify-write of a field of a one-byte register whose read succeeds:
the result is the outcome of the write transaction, and the byte written is
the byte read with the field replaced. -/
theorem RegisterBits_write_byte (a bits shift data : Nat) (s : Bus)
    (hread : s.ok s.log.length = true) :
    RegisterBits.write ⟨⟨a, 1, ByteOrder.LSBFIRST⟩, bits, shift⟩ data s =
      (s.ok (s.log.length + 1),
        { regs := if s.ok (s.log.length + 1) then
              storeBytes s.regs a [rmwByte (s.regs a).val data bits shift]
            else s.regs,
          ok := s.ok,
          log := s.log ++ [Txn.read a 1,
            Txn.write a [rmwByte (s.regs a).val data bits shift]] }) := by
  cases hw : s.ok (s.log.length + 1) <;>
    simp [RegisterBits.write, Register_read_byte, hread, Register.write, i2c_write,
      Bus.attempt, hw, split, splitLSB_one, rmwByte]

/-- Reading a field of a one-byte register. -/
theorem RegisterBits_read_byte (a bits shift : Nat) (s : Bus) :
    RegisterBits.read ⟨⟨a, 1, ByteOrder.LSBFIRST⟩, bits, shift⟩ s =
      (extractBits (if s.ok s.log.length then (s.regs a).val else 0xFFFFFFFF) bits shift,
        { s with log := s.log ++ [Txn.read a 1] }) := by
  simp [RegisterBits.read, Register_read_byte]

/-- What a field write on a one-byte register does when its read succeeds: it
fails with the register file untouched, or it succeeds, the field then holds
the argument reduced to the field's width, and nothing outside the field has
changed. The outcome is that of the write transaction. -/
theorem RegisterBits_write_byte_spec {bits shift : Nat} (hf : FieldLaws bits shift)
    (hbits : bits < 32) (a data : Nat) (s : Bus) (hread : s.ok s.log.length = true) :
    (RegisterBits.write ⟨⟨a, 1, ByteOrder.LSBFIRST⟩, bits, shift⟩ data s).1
      = s.ok (s.log.length + 1) ∧
    (RegisterBits.write ⟨⟨a, 1, ByteOrder.LSBFIRST⟩, bits, shift⟩ data s).2.ok = s.ok ∧
    (RegisterBits.write ⟨⟨a, 1, ByteOrder.LSBFIRST⟩, bits, shift⟩ data s).2.log.length
      = s.log.length + 2 ∧
    (s.ok (s.log.length + 1) = false →
      (RegisterBits.write ⟨⟨a, 1, ByteOrder.LSBFIRST⟩, bits, shift⟩ data s).2.regs = s.regs) ∧
    (s.ok (s.log.length + 1) = true →
      extractBits
        ((RegisterBits.write ⟨⟨a, 1, ByteOrder.LSBFIRST⟩, bits, shift⟩ data s).2.regs a).val
        bits shift = data % 2 ^ bits) ∧
    ChangesOnly s.regs
      (RegisterBits.write ⟨⟨a, 1, ByteOrder.LSBFIRST⟩, bits, shift⟩ data s).2.regs
      a shift bits := by
  rw [RegisterBits_write_byte a bits shift data s hread]
  have hl := hf.apply hbits (s.regs a) data
  refine ⟨rfl, rfl, by simp, ?_, ?_, ?_⟩
  · intro hw; simp [hw]
  · intro hw
    simp only [hw, if_true, storeBytes_one, Nat.mod_eq_of_lt (rmwByte_lt _ _ _ _)]
    exact hl.1
  · intro x j hx
    cases hw : s.ok (s.log.length + 1)
    · simp
    · simp only [if_true, storeBytes_one]
      by_cases hxa : x = a
      · subst hxa
        simp only [if_true, Nat.mod_eq_of_lt (rmwByte_lt _ _ _ _)]
        exact hl.2 j (by omega)
      · simp [hxa]

/-- Bitwise and acts on the low byte and on the rest separately. -/
theorem land_low_byte (a b c d : Nat) (hb : b < 256) (hd : d < 256) :
    (a * 256 + b) &&& (c * 256 + d) = (a &&& c) * 256 + (b &&& d) := by
  have hbd : b &&& d < 2 ^ 8 := Nat.lt_of_le_of_lt Nat.and_le_left hb
  apply Nat.eq_of_testBit_eq
  intro j
  rw [Nat.mul_comm a, Nat.mul_comm c, Nat.mul_comm (a &&& c), Nat.testBit_and]
  rw [Nat.testBit_mul_pow_two_add a (i := 8) hb j, Nat.testBit_mul_pow_two_add c (i := 8) hd j,
    Nat.testBit_mul_pow_two_add (a &&& c) (i := 8) hbd j]
  split <;> simp

theorem insertBits_power_field (v : Nat) : insertBits v 0 2 7 = v &&& (16777214 * 256 + 127) := by
  simp [insertBits, fieldMask]

theorem power_masks :
    ∀ b : Fin 256,
      b.val &&& 16777214 = b.val &&& 0xFE ∧
      (b.val &&& 0xFE) % 2 = 0 ∧ (b.val &&& 0x7F) < 128 ∧
      (extractBits (b.val &&& 0xFE) 3 4 = extractBits b.val 3 4 ∧
       extractBits (b.val &&& 0xFE) 1 3 = extractBits b.val 1 3 ∧
       extractBits (b.val &&& 0xFE) 1 2 = extractBits b.val 1 2 ∧
       extractBits (b.val &&& 0xFE) 1 1 = extractBits b.val 1 1) ∧
      (extractBits (b.val &&& 0x7F) 1 6 = extractBits b.val 1 6 ∧
       extractBits (b.val &&& 0x7F) 2 3 = extractBits b.val 2 3 ∧
       extractBits (b.val &&& 0x7F) 2 1 = extractBits b.val 2 1 ∧
       extractBits (b.val &&& 0x7F) 1 0 = extractBits b.val 1 0) ∧
      ∀ j : Fin 8,
        (b.val &&& 0xFE).testBit j.val = (decide (j.val ≠ 0) && b.val.testBit j.val) ∧
        (b.val &&& 0x7F).testBit j.val = (decide (j.val ≠ 7) && b.val.testBit j.val) := by
  decide

/-- The two bytes `enable` writes back: byte 0 with bit 0 cleared, byte 1 with
bit 7 cleared. -/
theorem enable_bytes (b0 b1 : Fin 256) :
    insertBits (b0.val * 256 + b1.val) 0 2 7 % 2 ^ 32 / 256 % 256 = b0.val &&& 0xFE ∧
    insertBits (b0.val * 256 + b1.val) 0 2 7 % 2 ^ 32 % 256 = b1.val &&& 0x7F := by
  have h0 : b0.val &&& 16777214 = b0.val &&& 0xFE := (power_masks b0).1
  have l0 : b0.val &&& 0xFE ≤ b0.val := Nat.and_le_left
  have l1 : b1.val &&& 0x7F ≤ b1.val := Nat.and_le_left
  have hb0 := b0.isLt
  have hb1 := b1.isLt
  rw [insertBits_power_field, land_low_byte _ _ _ _ b1.isLt (by decide), h0]
  omega

/-- What `enable` does when its register read succeeds. -/
theorem enable_eq (s : Bus) (hread : s.ok s.log.length = true) :
    enable s =
      (s.ok (s.log.length + 1),
        { regs := if s.ok (s.log.length + 1) then
              storeBytes s.regs 0 [(s.regs 0).val &&& 0xFE, (s.regs 1).val &&& 0x7F]
            else s.regs,
          ok := s.ok,
          log := s.log ++ [Txn.read 0 2,
            Txn.write 0 [(s.regs 0).val &&& 0xFE, (s.regs 1).val &&& 0x7F]] }) := by
  have hb := enable_bytes (s.regs 0) (s.regs 1)
  simp only [Nat.reducePow] at hb
  cases hw : s.ok (s.log.length + 1) <;>
    simp [enable, rgb_conf_reg, VEML6046_REG_RGB_CONF_0, RegisterBits.write,
      (Register_read_pair 0 s).2, hread, Register.write, i2c_write,
      Bus.attempt, hw, split, splitLSB_two, hb.1, hb.2]

/-- The power field of the two-byte register at `RGB_CONF_0`: bits 7-8 of the
word read most significant byte first. -/
theorem extractBits_power_field (v : Nat) : extractBits v 2 7 = v / 128 % 4 := by
  have h : ∀ x : Nat, x &&& 3 = x % 4 := fun x => Nat.and_pow_two_sub_one_eq_mod x 2
  simp [extractBits, fieldMask, Nat.shiftRight_eq_div_pow, h]

/-! ## The steps of `begin` -/

/-- The chip ID `begin` compares with `0x0001`: the comparison passes exactly
when the ID read succeeds and the two ID bytes are `0x01`, `0x00`. -/
theorem chip_id_check (s : Bus) :
    ((Register.read ⟨VEML6046_REG_ID_L, 2, ByteOrder.LSBFIRST⟩ s).1 % 65536 != 0x0001) =
      !(s.ok s.log.length && decide ((s.regs 0x18).val + 256 * (s.regs 0x19).val = 0x0001)) := by
  have hlt : (s.regs 24).val + 256 * (s.regs 25).val < 65536 := by
    have h0 := (s.regs 24).isLt
    have h1 := (s.regs 25).isLt
    omega
  have hff : (4294967295 % 65536 != 1) = true := by decide
  cases h : s.ok s.log.length
  · simp only [VEML6046_REG_ID_L, (Register_read_pair 24 s).1, h]
    exact hff
  · by_cases hid : (s.regs 24).val + 256 * (s.regs 25).val = 1 <;>
      simp [VEML6046_REG_ID_L, (Register_read_pair 24 s).1, h, Nat.mod_eq_of_lt hlt, hid]

/-- What `begin` does, step by step: the probe, the ID read and check, `enable`,
`setRGBCalibration(true)`; each failure ends it there. -/
theorem begin_eq (s : Bus) (i2c_addr : Nat) :
    begin s i2c_addr =
      if s.ok s.log.length = false then
        (false, { s with log := s.log ++ [Txn.probe (i2c_addr % 256)] })
      else if (s.ok (s.log.length + 1) &&
          decide ((s.regs 0x18).val + 256 * (s.regs 0x19).val = 0x0001)) = false then
        (false, afterId s i2c_addr)
      else if (enable (afterId s i2c_addr)).1 = false then
        (false, (enable (afterId s i2c_addr)).2)
      else
        setRGBCalibration (enable (afterId s i2c_addr)).2 true := by
  have hs2 : (Register.read ⟨VEML6046_REG_ID_L, 2, ByteOrder.LSBFIRST⟩
      { s with log := s.log ++ [Txn.probe (i2c_addr % 256)] }).2 = afterId s i2c_addr := by
    simp [afterId, VEML6046_REG_ID_L, (Register_read_pair 24 _).1]
  have hchk := chip_id_check { s with log := s.log ++ [Txn.probe (i2c_addr % 256)] }
  simp only [List.length_append, List.length_singleton] at hchk
  unfold begin
  simp only [i2c_begin, Bus.attempt, hchk, hs2]
  cases h0 : s.ok s.log.length
  · simp
  · cases h1 : (s.ok (s.log.length + 1) &&
        decide ((s.regs 0x18).val + 256 * (s.regs 0x19).val = 0x0001))
    · simp
    · cases he : (enable (afterId s i2c_addr)).1
      · simp
      · cases hc : (setRGBCalibration (enable (afterId s i2c_addr)).2 true).1 <;>
          simp [hc, Prod.ext_iff]


/-- C1: when the 8-byte read at `R_DATA_L` succeeds and returns the burst
`b0..b7`, `getData` with four non-null outputs returns true and performs the
stores `*r = b0 + 256*b1`, `*g = b2 + 256*b3`, `*b = b4 + 256*b5`,
`*ir = b6 + 256*b7`, in this order; with four distinct locations each of them
holds its channel afterwards. -/
theorem getData_decodes_burst (s : Bus) (m : Mem) (pr pg pb pir : Nat)
    (b0 b1 b2 b3 b4 b5 b6 b7 : Nat)
    (hok : s.ok s.log.length = true)
    (hburst : fetchBytes s.regs VEML6046_REG_R_DATA_L 8 = [b0, b1, b2, b3, b4, b5, b6, b7]) :
    (getData s m (some pr) (some pg) (some pb) (some pir)).1 = true ∧
    (getData s m (some pr) (some pg) (some pb) (some pir)).2.2 =
      (((m.store pr (b0 + 256 * b1)).store pg (b2 + 256 * b3)).store pb
        (b4 + 256 * b5)).store pir (b6 + 256 * b7) ∧
    b0 + 256 * b1 < 65536 ∧ b2 + 256 * b3 < 65536 ∧
    b4 + 256 * b5 < 65536 ∧ b6 + 256 * b7 < 65536 ∧
    (pr ≠ pg ∧ pr ≠ pb ∧ pr ≠ pir ∧ pg ≠ pb ∧ pg ≠ pir ∧ pb ≠ pir →
      (getData s m (some pr) (some pg) (some pb) (some pir)).2.2 pr = b0 + 256 * b1 ∧
      (getData s m (some pr) (some pg) (some pb) (some pir)).2.2 pg = b2 + 256 * b3 ∧
      (getData s m (some pr) (some pg) (some pb) (some pir)).2.2 pb = b4 + 256 * b5 ∧
      (getData s m (some pr) (some pg) (some pb) (some pir)).2.2 pir = b6 + 256 * b7) := by
  rw [fetchBytes_eight] at hburst
  simp only [List.cons.injEq, and_true] at hburst
  obtain ⟨h0, h1, h2, h3, h4, h5, h6, h7⟩ := hburst
  have l0 : b0 < 256 := h0 ▸ (s.regs _).isLt
  have l1 : b1 < 256 := h1 ▸ (s.regs _).isLt
  have l2 : b2 < 256 := h2 ▸ (s.regs _).isLt
  have l3 : b3 < 256 := h3 ▸ (s.regs _).isLt
  have l4 : b4 < 256 := h4 ▸ (s.regs _).isLt
  have l5 : b5 < 256 := h5 ▸ (s.regs _).isLt
  have l6 : b6 < 256 := h6 ▸ (s.regs _).isLt
  have l7 : b7 < 256 := h7 ▸ (s.regs _).isLt
  have hget : getData s m (some pr) (some pg) (some pb) (some pir) =
      (true, { s with log := s.log ++ [Txn.read VEML6046_REG_R_DATA_L 8] },
        (((m.store pr (b0 + 256 * b1)).store pg (b2 + 256 * b3)).store pb
          (b4 + 256 * b5)).store pir (b6 + 256 * b7)) := by
    simp only [getData, write_then_read, Bus.attempt, hok, if_true, fetchBytes_eight, word16,
      List.getD_cons_zero, List.getD_cons_succ, h0, h1, h2, h3, h4, h5, h6, h7,
      word_of_bytes _ _ l0 l1, word_of_bytes _ _ l2 l3, word_of_bytes _ _ l4 l5,
      word_of_bytes _ _ l6 l7]
  rw [hget]
  refine ⟨rfl, rfl, by omega, by omega, by omega, by omega, ?_⟩
  rintro ⟨h12, h13, h14, h23, h24, h34⟩
  have e0 : (b0 + 256 * b1) % 65536 = b0 + 256 * b1 := Nat.mod_eq_of_lt (by omega)
  have e1 : (b2 + 256 * b3) % 65536 = b2 + 256 * b3 := Nat.mod_eq_of_lt (by omega)
  have e2 : (b4 + 256 * b5) % 65536 = b4 + 256 * b5 := Nat.mod_eq_of_lt (by omega)
  have e3 : (b6 + 256 * b7) % 65536 = b6 + 256 * b7 := Nat.mod_eq_of_lt (by omega)
  simp [Mem.store, h12, h13, h14, h23, h24, h34, e0, e1, e2, e3]

/-- Witness of C1: the burst `[0x34,0x12, 0x78,0x56, 0xBC,0x9A, 0xF0,0xDE]` on the sample
sensor yields red `0x1234`, green `0x5678`, blue `0x9ABC`, ir `0xDEF0`. -/
theorem getData_decodes_burst_witness :
    (getData sampleBus sampleMem (some 0) (some 1) (some 2) (some 3)).1 = true ∧
    (getData sampleBus sampleMem (some 0) (some 1) (some 2) (some 3)).2.2 0 = 0x1234 ∧
    (getData sampleBus sampleMem (some 0) (some 1) (some 2) (some 3)).2.2 1 = 0x5678 ∧
    (getData sampleBus sampleMem (some 0) (some 1) (some 2) (some 3)).2.2 2 = 0x9ABC ∧
    (getData sampleBus sampleMem (some 0) (some 1) (some 2) (some 3)).2.2 3 = 0xDEF0 := by
  have h := getData_decodes_burst sampleBus sampleMem 0 1 2 3
    0x34 0x12 0x78 0x56 0xBC 0x9A 0xF0 0xDE rfl (by decide)
  exact ⟨h.1, h.2.2.2.2.2.2 (by decide)⟩

/-- C2: when at least one of the four output pointers is null, `getData`
returns false, attempts no bus transaction (the bus state, its log included,
is unchanged) and writes no output (the caller's memory is unchanged). -/
theorem getData_null_pointer (s : Bus) (m : Mem) (r g b ir : Ptr)
    (hnull : r = none ∨ g = none ∨ b = none ∨ ir = none) :
    getData s m r g b ir = (false, s, m) := by
  cases r <;> cases g <;> cases b <;> cases ir <;> simp_all [getData]

/-- Witness of C2: a null blue pointer on the sample sensor. -/
theorem getData_null_pointer_witness :
    getData sampleBus sampleMem (some 0) (some 1) none (some 3)
      = (false, sampleBus, sampleMem) :=
  getData_null_pointer sampleBus sampleMem (some 0) (some 1) none (some 3)
    (Or.inr (Or.inr (Or.inl rfl)))

/-- C3: `getData` with four non-null outputs attempts exactly one bus
transaction, the 8-byte read at `R_DATA_L`. When that read fails it returns
false and the caller's memory is unchanged. In every case either it returns
false with the memory unchanged, or it returns true and the memory is the old
one after the four stores of the words of that one burst. -/
theorem getData_all_or_nothing (s : Bus) (m : Mem) (pr pg pb pir : Nat) :
    (getData s m (some pr) (some pg) (some pb) (some pir)).2.1.log
      = s.log ++ [Txn.read VEML6046_REG_R_DATA_L 8] ∧
    (s.ok s.log.length = false →
      (getData s m (some pr) (some pg) (some pb) (some pir)).1 = false ∧
      (getData s m (some pr) (some pg) (some pb) (some pir)).2.2 = m) ∧
    (((getData s m (some pr) (some pg) (some pb) (some pir)).1 = false ∧
      (getData s m (some pr) (some pg) (some pb) (some pir)).2.2 = m) ∨
     ((getData s m (some pr) (some pg) (some pb) (some pir)).1 = true ∧
      (getData s m (some pr) (some pg) (some pb) (some pir)).2.2 =
        (((m.store pr (word16 (fetchBytes s.regs VEML6046_REG_R_DATA_L 8) 0)).store pg
          (word16 (fetchBytes s.regs VEML6046_REG_R_DATA_L 8) 2)).store pb
          (word16 (fetchBytes s.regs VEML6046_REG_R_DATA_L 8) 4)).store pir
          (word16 (fetchBytes s.regs VEML6046_REG_R_DATA_L 8) 6))) := by
  cases hok : s.ok s.log.length <;>
    simp [getData, write_then_read, Bus.attempt, hok]

/-- Witness of C3: the failing read on the dead bus. -/
theorem getData_all_or_nothing_witness :
    (getData deadBus sampleMem (some 0) (some 1) (some 2) (some 3)).1 = false ∧
    (getData deadBus sampleMem (some 0) (some 1) (some 2) (some 3)).2.2 = sampleMem :=
  (getData_all_or_nothing deadBus sampleMem 0 1 2 3).2.1 rfl

/-! ## `begin` -/

/-- C4: when the two ID bytes at `0x18`/`0x19` make a value other than `0x0001`,
`begin` returns false, the register file is unchanged, and the only
transactions attempted are the probe and (when the probe succeeded) the ID
read: neither the enable write nor the calibration write is issued. -/
theorem begin_rejects_wrong_id (s : Bus) (i2c_addr : Nat)
    (hid : (s.regs 0x18).val + 256 * (s.regs 0x19).val ≠ 0x0001) :
    (begin s i2c_addr).1 = false ∧
    (begin s i2c_addr).2.regs = s.regs ∧
    (begin s i2c_addr).2.log =
      (if s.ok s.log.length then
        s.log ++ [Txn.probe (i2c_addr % 256), Txn.read VEML6046_REG_ID_L 2]
      else s.log ++ [Txn.probe (i2c_addr % 256)]) ∧
    (∀ (reg : Nat) (bytes : List Nat),
      Txn.write reg bytes ∈ (begin s i2c_addr).2.log → Txn.write reg bytes ∈ s.log) := by
  rw [begin_eq]
  cases h0 : s.ok s.log.length <;> simp [hid, afterId]

/-- Witness of C4: the sample sensor answering ID `0x0002`. -/
theorem begin_rejects_wrong_id_witness :
    (begin wrongIdBus 0x29).1 = false ∧
    (begin wrongIdBus 0x29).2.regs = wrongIdBus.regs ∧
    (begin wrongIdBus 0x29).2.log = [Txn.probe 0x29, Txn.read 0x18 2] :=
  have h := begin_rejects_wrong_id wrongIdBus 0x29 (by decide)
  ⟨h.1, h.2.1, h.2.2.1⟩

/-- C6: on a bus where every transaction succeeds, for every content of the
register file, each of the 8 integration times, each of the 4 gains and each of
the 4 persistence values is set successfully and read back by its getter. -/
theorem set_get_roundtrip (s : Bus) (hok : ∀ n, s.ok n = true) :
    (∀ v : veml6046_integration_time_t,
      (setIntegrationTime s v.val).1 = true ∧
      (getIntegrationTime (setIntegrationTime s v.val).2).1 = v.val) ∧
    (∀ g : veml6046_gain_t,
      (setRGBGain s g.val).1 = true ∧
      (getRGBGain (setRGBGain s g.val).2).1 = g.val) ∧
    (∀ p : veml6046_persistence_t,
      (setIntPersistence s p.val).1 = true ∧
      (getIntPersistence (setIntPersistence s p.val).2).1 = p.val) := by
  refine ⟨fun v => ?_, fun g => ?_, fun p => ?_⟩
  · obtain ⟨h1, h2, _, _, h5, _⟩ := RegisterBits_write_byte_spec fieldLaws_3_4 (by decide)
      VEML6046_REG_RGB_CONF_0 v.val s (hok _)
    refine ⟨by simpa [setIntegrationTime, rgb_conf0_reg, hok] using h1, ?_⟩
    have h5 := h5 (hok _)
    simp only [getIntegrationTime, setIntegrationTime, rgb_conf0_reg, RegisterBits_read_byte,
      h2, hok, if_true] at h5 ⊢
    rw [h5]; cases v <;> rfl
  · obtain ⟨h1, h2, _, _, h5, _⟩ := RegisterBits_write_byte_spec fieldLaws_2_3 (by decide)
      VEML6046_REG_RGB_CONF_1 g.val s (hok _)
    refine ⟨by simpa [setRGBGain, rgb_conf1_reg, hok] using h1, ?_⟩
    have h5 := h5 (hok _)
    simp only [getRGBGain, setRGBGain, rgb_conf1_reg, RegisterBits_read_byte,
      h2, hok, if_true] at h5 ⊢
    rw [h5]; cases g <;> rfl
  · obtain ⟨h1, h2, _, _, h5, _⟩ := RegisterBits_write_byte_spec fieldLaws_2_1 (by decide)
      VEML6046_REG_RGB_CONF_1 p.val s (hok _)
    refine ⟨by simpa [setIntPersistence, rgb_conf1_reg, hok] using h1, ?_⟩
    have h5 := h5 (hok _)
    simp only [getIntPersistence, setIntPersistence, rgb_conf1_reg, RegisterBits_read_byte,
      h2, hok, if_true] at h5 ⊢
    rw [h5]; cases p <;> rfl

/-- Witness of C6: integration time 100 ms on the sample sensor. -/
theorem set_get_roundtrip_witness :
    (setIntegrationTime sampleBus 5).1 = true ∧
    (getIntegrationTime (setIntegrationTime sampleBus 5).2).1 = 5 :=
  (set_get_roundtrip sampleBus (fun _ => rfl)).1
    veml6046_integration_time_t.VEML6046_IT_100MS

/-- The frame of a setter call composes: a second write to the same field keeps
the frame of the first. -/
theorem ChangesOnly.trans {r0 r1 r2 : Nat → Fin 256} {byte lo width : Nat}
    (h01 : ChangesOnly r0 r1 byte lo width) (h12 : ChangesOnly r1 r2 byte lo width) :
    ChangesOnly r0 r2 byte lo width :=
  fun a j h => (h12 a j h).trans (h01 a j h)

/-- C8: on a bus where every transaction succeeds, for every content of the
configuration bytes, `enable()` succeeds and writes 0 to the 2-bit power field
of the register pair (bits 7-8 of the two bytes read most significant first:
bit 0 of byte 0 and bit 7 of byte 1); every other bit of every register is
unchanged, `isEnabled()` then returns true, and integration time, forced mode,
trigger, green interrupt enable, photodiode size, gain, persistence and
calibration enable read back as before. -/
theorem enable_clears_only_power_field (s : Bus) (hok : ∀ n, s.ok n = true) :
    (enable s).1 = true ∧
    extractBits (((enable s).2.regs 0).val * 256 + ((enable s).2.regs 1).val) 2 7 = 0 ∧
    ((enable s).2.regs 0).val.testBit 0 = false ∧
    ((enable s).2.regs 1).val.testBit 7 = false ∧
    (∀ a j : Nat, ¬(a = 0 ∧ j = 0) → ¬(a = 1 ∧ j = 7) →
      ((enable s).2.regs a).val.testBit j = (s.regs a).val.testBit j) ∧
    (isEnabled (enable s).2).1 = true ∧
    (getIntegrationTime (enable s).2).1 = (getIntegrationTime s).1 ∧
    (getRGBModeForced (enable s).2).1 = (getRGBModeForced s).1 ∧
    (isTriggered (enable s).2).1 = (isTriggered s).1 ∧
    (getGreenIntEnabled (enable s).2).1 = (getGreenIntEnabled s).1 ∧
    (getPhotoDiodeHalfSize (enable s).2).1 = (getPhotoDiodeHalfSize s).1 ∧
    (getRGBGain (enable s).2).1 = (getRGBGain s).1 ∧
    (getIntPersistence (enable s).2).1 = (getIntPersistence s).1 ∧
    (getRGBCalibration (enable s).2).1 = (getRGBCalibration s).1 := by
  obtain ⟨_, hev, hlt, ⟨f1, f2, f3, f4⟩, ⟨g1, g2, g3, g4⟩, hbit0⟩ := power_masks (s.regs 0)
  obtain ⟨_, _, hlt1, _, ⟨k1, k2, k3, k4⟩, hbit1⟩ := power_masks (s.regs 1)
  have hl0 : (s.regs 0).val &&& 0xFE < 256 :=
    Nat.lt_of_le_of_lt Nat.and_le_left (s.regs 0).isLt
  have hl1 : (s.regs 1).val &&& 0x7F < 256 :=
    Nat.lt_of_le_of_lt Nat.and_le_left (s.regs 1).isLt
  have r0 : ((enable s).2.regs 0).val = (s.regs 0).val &&& 0xFE := by
    rw [enable_eq s (hok _)]
    simp [hok, storeBytes_two, Nat.mod_eq_of_lt hl0]
  have r1 : ((enable s).2.regs 1).val = (s.regs 1).val &&& 0x7F := by
    rw [enable_eq s (hok _)]
    simp [hok, storeBytes_two, Nat.mod_eq_of_lt hl1]
  have rx : ∀ a : Nat, a ≠ 0 → a ≠ 1 → (enable s).2.regs a = s.regs a := by
    intro a h0 h1
    rw [enable_eq s (hok _)]
    apply Fin.ext
    simp [hok, storeBytes_two, h0, h1]
  have hk : (enable s).2.ok = s.ok := by rw [enable_eq s (hok _)]
  refine ⟨by rw [enable_eq s (hok _)]; exact hok _, ?_, ?_, ?_, ?_, ?_, ?_, ?_, ?_, ?_, ?_,
    ?_, ?_, ?_⟩
  · rw [r0, r1, extractBits_power_field]; omega
  · rw [r0]; exact ((hbit0 ⟨0, by decide⟩).1).trans (by simp)
  · rw [r1]; exact ((hbit1 ⟨7, by decide⟩).2).trans (by simp)
  · intro a j h0 h1
    by_cases ha0 : a = 0
    · subst ha0
      rw [r0]
      by_cases h8 : j < 8
      · rw [(hbit0 ⟨j, h8⟩).1]
        have : j ≠ 0 := fun h => h0 ⟨rfl, h⟩
        simp [this]
      · rw [testBit_byte_high _ j hl0 (by omega),
          testBit_byte_high _ j (s.regs 0).isLt (by omega)]
    · by_cases ha1 : a = 1
      · subst ha1
        rw [r1]
        by_cases h8 : j < 8
        · rw [(hbit1 ⟨j, h8⟩).2]
          have : j ≠ 7 := fun h => h1 ⟨rfl, h⟩
          simp [this]
        · rw [testBit_byte_high _ j hl1 (by omega),
            testBit_byte_high _ j (s.regs 1).isLt (by omega)]
      · rw [rx a ha0 ha1]
  · have h : extractBits (((enable s).2.regs 0).val * 256 + ((enable s).2.regs 1).val) 2 7
        = 0 := by
      rw [r0, r1, extractBits_power_field]; omega
    simp [isEnabled, rgb_conf_reg, VEML6046_REG_RGB_CONF_0, RegisterBits.read,
      (Register_read_pair 0 _).2, hk, hok, h]
  · simp [getIntegrationTime, rgb_conf0_reg, VEML6046_REG_RGB_CONF_0, RegisterBits_read_byte,
      hk, hok, r0, f1]
  · simp [getRGBModeForced, rgb_conf0_reg, VEML6046_REG_RGB_CONF_0, RegisterBits_read_byte,
      hk, hok, r0, f2]
  · simp [isTriggered, rgb_conf0_reg, VEML6046_REG_RGB_CONF_0, RegisterBits_read_byte,
      hk, hok, r0, f3]
  · simp [getGreenIntEnabled, rgb_conf0_reg, VEML6046_REG_RGB_CONF_0, RegisterBits_read_byte,
      hk, hok, r0, f4]
  · simp [getPhotoDiodeHalfSize, rgb_conf1_reg, VEML6046_REG_RGB_CONF_1,
      RegisterBits_read_byte, hk, hok, r1, k1]
  · simp [getRGBGain, rgb_conf1_reg, VEML6046_REG_RGB_CONF_1, RegisterBits_read_byte,
      hk, hok, r1, k2]
  · simp [getIntPersistence, rgb_conf1_reg, VEML6046_REG_RGB_CONF_1, RegisterBits_read_byte,
      hk, hok, r1, k3]
  · simp [getRGBCalibration, rgb_conf1_reg, VEML6046_REG_RGB_CONF_1, RegisterBits_read_byte,
      hk, hok, r1, k4]

/-- Witness of C8: `enable` on the sample sensor. -/
theorem enable_clears_only_power_field_witness :
    (enable sampleBus).1 = true ∧
    ((enable sampleBus).2.regs 0).val.testBit 0 = false ∧
    ((enable sampleBus).2.regs 1).val.testBit 7 = false ∧
    (isEnabled (enable sampleBus).2).1 = true :=
  have h := enable_clears_only_power_field sampleBus (fun _ => rfl)
  ⟨h.1, h.2.2.1, h.2.2.2.1, h.2.2.2.2.2.1⟩

/-! ## Green thresholds -/

/-- Writing a two-byte least-significant-first register: one write transaction
carrying the low byte, then the high byte. -/
theorem Register_write_pair (a v : Nat) (s : Bus) (hv : v < 65536) :
    Register.write ⟨a, 2, ByteOrder.LSBFIRST⟩ v s =
      (s.ok s.log.length,
        { regs := if s.ok s.log.length then storeBytes s.regs a [v % 256, v / 256]
            else s.regs,
          ok := s.ok,
          log := s.log ++ [Txn.write a [v % 256, v / 256]] }) := by
  have h1 : v % 4294967296 = v := Nat.mod_eq_of_lt (by omega)
  have h2 : v / 256 % 256 = v / 256 := Nat.mod_eq_of_lt (by omega)
  cases hw : s.ok s.log.length <;>
    simp [Register.write, i2c_write, Bus.attempt, hw, split, splitLSB_two, h1, h2]

/-- C9: on a bus where every transaction succeeds, for every 16-bit `t`:
`setGreenThresholdHigh(t)` succeeds, stores the low byte of `t` at `0x04` and the
high byte at `0x05`, changes no other register, `getGreenThresholdHigh()` then
returns `t` and `getGreenThresholdLow()` what it returned before; and likewise
`setGreenThresholdLow(t)` with `0x06`, `0x07` and the two getters exchanged. -/
theorem threshold_roundtrip (s : Bus) (t : Nat) (ht : t < 65536) (hok : ∀ n, s.ok n = true) :
    ((setGreenThresholdHigh s t).1 = true ∧
     ((setGreenThresholdHigh s t).2.regs 0x04).val = t % 256 ∧
     ((setGreenThresholdHigh s t).2.regs 0x05).val = t / 256 ∧
     (∀ a : Nat, a ≠ 0x04 → a ≠ 0x05 → (setGreenThresholdHigh s t).2.regs a = s.regs a) ∧
     (getGreenThresholdHigh (setGreenThresholdHigh s t).2).1 = t ∧
     (getGreenThresholdLow (setGreenThresholdHigh s t).2).1 = (getGreenThresholdLow s).1) ∧
    ((setGreenThresholdLow s t).1 = true ∧
     ((setGreenThresholdLow s t).2.regs 0x06).val = t % 256 ∧
     ((setGreenThresholdLow s t).2.regs 0x07).val = t / 256 ∧
     (∀ a : Nat, a ≠ 0x06 → a ≠ 0x07 → (setGreenThresholdLow s t).2.regs a = s.regs a) ∧
     (getGreenThresholdLow (setGreenThresholdLow s t).2).1 = t ∧
     (getGreenThresholdHigh (setGreenThresholdLow s t).2).1 = (getGreenThresholdHigh s).1) := by
  have hm : t % 65536 = t := Nat.mod_eq_of_lt ht
  have h1 : t % 256 % 256 = t % 256 := Nat.mod_mod _ _
  have h2 : t / 256 % 256 = t / 256 := Nat.mod_eq_of_lt (by omega)
  have eH : setGreenThresholdHigh s t =
      (true, { regs := storeBytes s.regs 4 [t % 256, t / 256], ok := s.ok,
               log := s.log ++ [Txn.write 4 [t % 256, t / 256]] }) := by
    simp [setGreenThresholdHigh, thdh_reg, VEML6046_REG_G_THDH_L, hm,
      Register_write_pair 4 t s ht, hok]
  have eL : setGreenThresholdLow s t =
      (true, { regs := storeBytes s.regs 6 [t % 256, t / 256], ok := s.ok,
               log := s.log ++ [Txn.write 6 [t % 256, t / 256]] }) := by
    simp [setGreenThresholdLow, thdl_reg, VEML6046_REG_G_THDL_L, hm,
      Register_write_pair 6 t s ht, hok]
  refine ⟨?_, ?_⟩
  · rw [eH]
    refine ⟨rfl, by simp [storeBytes_two, h1], by simp [storeBytes_two, h2], ?_, ?_, ?_⟩
    · intro a h4 h5
      apply Fin.ext
      simp [storeBytes_two, h4, h5]
    · simp only [getGreenThresholdHigh, thdh_reg, VEML6046_REG_G_THDH_L,
        (Register_read_pair 4 _).1, hok, if_true, storeBytes_two, h1, h2]
      simp; omega
    · simp only [getGreenThresholdLow, thdl_reg, VEML6046_REG_G_THDL_L,
        (Register_read_pair 6 _).1, hok, if_true, storeBytes_two]
      simp
  · rw [eL]
    refine ⟨rfl, by simp [storeBytes_two, h1], by simp [storeBytes_two, h2], ?_, ?_, ?_⟩
    · intro a h6 h7
      apply Fin.ext
      simp [storeBytes_two, h6, h7]
    · simp only [getGreenThresholdLow, thdl_reg, VEML6046_REG_G_THDL_L,
        (Register_read_pair 6 _).1, hok, if_true, storeBytes_two, h1, h2]
      simp; omega
    · simp only [getGreenThresholdHigh, thdh_reg, VEML6046_REG_G_THDH_L,
        (Register_read_pair 4 _).1, hok, if_true, storeBytes_two]
      simp

/-- Witness of C9: the threshold `0xABCD` on the sample sensor. -/
theorem threshold_roundtrip_witness :
    (setGreenThresholdHigh sampleBus 0xABCD).1 = true ∧
    ((setGreenThresholdHigh sampleBus 0xABCD).2.regs 0x04).val = 0xCD ∧
    ((setGreenThresholdHigh sampleBus 0xABCD).2.regs 0x05).val = 0xAB ∧
    (getGreenThresholdHigh (setGreenThresholdHigh sampleBus 0xABCD).2).1 = 0xABCD :=
  have h := (threshold_roundtrip sampleBus 0xABCD (by decide) (fun _ => rfl)).1
  ⟨h.1, h.2.1, h.2.2.1, h.2.2.2.2.1⟩

end VEML6046
